import Mathlib

/-!
Verification of the Ruyi venv detection utility (`DetectforVenv.ts`) and the
venv clean command (`clean.ts`).

The TypeScript code is shallowly embedded: the filesystem and the workspace
resolver become an explicit record of (possibly failing) operations, JS string
operations (`split`, `includes`, `trim`, `startsWith`) become executable Lean
functions on `String` / `List Char`, exceptions become `Except`, and console
logging becomes an accumulated list of log entries.
-/

namespace RuyiVenv

/-- JS `String.prototype.split` with a single-character separator,
on the character list of the string. `"".split(c) = [""]`. -/
def jsSplitList (sep : Char) : List Char → List (List Char)
  | [] => [[]]
  | c :: cs =>
    if c = sep then [] :: jsSplitList sep cs
    else
      match jsSplitList sep cs with
      | [] => [[c]]
      | p :: ps => (c :: p) :: ps

/-- JS `String.prototype.split` with a single-character separator. -/
def jsSplit (sep : Char) (s : String) : List String :=
  (jsSplitList sep s.data).map (fun l => String.mk l)

/-- Substring occurrence on character lists (JS `String.prototype.includes`). -/
def listHasSub (sub : List Char) : List Char → Bool
  | [] => sub.isEmpty
  | c :: cs => sub.isPrefixOf (c :: cs) || listHasSub sub cs

/-- JS `String.prototype.includes`. -/
def containsSub (sub s : String) : Bool :=
  listHasSub sub.data s.data

/-- JS `String.prototype.startsWith`. -/
def jsStartsWith (p s : String) : Bool :=
  p.data.isPrefixOf s.data

/-- JS `String.prototype.trim`: drop whitespace from both ends. -/
def jsTrim (s : String) : String :=
  String.mk (((s.data.dropWhile Char.isWhitespace).reverse.dropWhile
    Char.isWhitespace).reverse)

/-- A directory entry as returned by `fs.readdirSync(p, { withFileTypes: true })`:
a name together with whether the entry is a directory. -/
structure DirEntry where
  name : String
  isDir : Bool
deriving DecidableEq

/-- One line of console output of the scanner. -/
inductive LogEntry where
  | warn (msg : String)
  | error (msg : String)
deriving DecidableEq

/-- The external world `detectVenv` interacts with: the workspace-root
resolver (which may throw) and the filesystem read interface. Fallible
operations return `Except` with the thrown error's message. -/
structure FS where
  workspaceFolderPath : Except String String
  readdir : String → Except String (List DirEntry)
  fileExists : String → Bool
  readFile : String → Except String String

/-- `path.join` of one extra component (its arguments here never need
normalization: the right component never starts with `/` and is nonempty). -/
def pathJoin (a b : String) : String := a ++ "/" ++ b

/-- The marker-file path `path.join(workspacePath, dir, 'bin', 'ruyi-activate')`. -/
def markerPath (ws dir : String) : String :=
  pathJoin (pathJoin (pathJoin ws dir) "bin") "ruyi-activate"

/-- The per-segment security check `isPathSafe` of `DetectforVenv.ts`. -/
def isPathSafe (seg : String) : Bool :=
  if seg.data = [] then false
  else if containsSub ".." seg || containsSub "\x00" seg then false
  else if seg = "." || jsStartsWith "/" seg then false
  else true

/-- Label extraction from the marker-file content:
`content.split('\n').find(line => line.includes('RUYI_VENV_PROMPT='))`
followed by `promptLine.split('=')[1].trim()`. When a line is found it
contains at least one `=`, so `split('=')` has at least two parts and the
`getD` default is never used. -/
def promptLabel (content : String) : Option String :=
  ((jsSplit '\n' content).find? (fun line => containsSub "RUYI_VENV_PROMPT=" line)).map
    (fun promptLine => jsTrim ((jsSplit '=' promptLine).getD 1 ""))

/-- One iteration of the `for (const dir of allDirsToCheck)` loop. The state is
the accumulated `foundVenvs` and console log; a thrown exception is an
`Except.error` carrying the message together with the state at throw time. -/
def processDir (fsi : FS) (ws : String) (acc : List (List String)) (log : List LogEntry)
    (dir : String) :
    Except (String × List (List String) × List LogEntry) (List (List String) × List LogEntry) :=
  if (jsSplit '/' dir).all isPathSafe then
    if fsi.fileExists (markerPath ws dir) then
      match fsi.readFile (markerPath ws dir) with
      | .error e => .error (e, acc, log)
      | .ok content =>
        match promptLabel content with
        | some lbl => .ok (acc ++ [[dir, lbl]], log)
        | none => .ok (acc, log)
    else .ok (acc, log)
  else .ok (acc, log ++ [.warn ("Skipping unsafe path: " ++ dir)])

/-- The candidate loop of `detectVenv`; a thrown exception aborts it. -/
def scanLoop (fsi : FS) (ws : String) :
    List String → List (List String) → List LogEntry →
    Except (String × List (List String) × List LogEntry) (List (List String) × List LogEntry)
  | [], acc, log => .ok (acc, log)
  | d :: ds, acc, log =>
    match processDir fsi ws acc log d with
    | .ok (acc2, log2) => scanLoop fsi ws ds acc2 log2
    | .error err => .error err

/-- One step of the `subdirectories.flatMap` with its inner `try`/`catch`:
list a depth-1 directory, producing `<subdir>/<name>` candidates, or swallow
the failure into a single warning and produce no candidates. -/
def listSubdirsOf (fsi : FS) (ws subdir : String) : List String × List LogEntry :=
  match fsi.readdir (pathJoin ws subdir) with
  | .ok es => ((es.filter (fun d => d.isDir)).map (fun d => subdir ++ "/" ++ d.name), [])
  | .error e => ([], [.warn ("[Warning] Failed to read " ++ subdir ++ ": " ++ e)])

/-- `allDirsToCheck` (depth-1 names, then the flatMap of depth-2 names),
together with the warnings emitted while listing depth-1 directories. -/
def rootCandidates (fsi : FS) (ws : String) (entries : List DirEntry) :
    List String × List LogEntry :=
  let subdirectories := (entries.filter (fun d => d.isDir)).map (fun d => d.name)
  let listed := subdirectories.map (listSubdirsOf fsi ws)
  (subdirectories ++ (listed.map Prod.fst).flatten, (listed.map Prod.snd).flatten)

/-- The body of the outer `try` block of `detectVenv`. An `Except.error`
is an exception reaching the outer `catch`, carrying the accumulated state. -/
def tryDetect (fsi : FS) :
    Except (String × List (List String) × List LogEntry) (List (List String) × List LogEntry) :=
  match fsi.workspaceFolderPath with
  | .error e => .error (e, [], [])
  | .ok ws =>
    match fsi.readdir ws with
    | .error e => .error (e, [], [])
    | .ok entries =>
      let cands := rootCandidates fsi ws entries
      scanLoop fsi ws cands.1 [] cands.2

/-- `detectVenv`: run the `try` block; the `catch` logs
`[Error] Failed to detect venvs: ...` and returns the accumulated
`foundVenvs`. The result is the returned `string[][]` plus the console log. -/
def detectVenv (fsi : FS) : List (List String) × List LogEntry :=
  match tryDetect fsi with
  | .ok r => r
  | .error (e, acc, log) => (acc, log ++ [.error ("[Error] Failed to detect venvs: " ++ e)])

/-- The `foundVenvs` accumulator visible in a loop outcome, whether the loop
finished or threw. -/
def accOf :
    Except (String × List (List String) × List LogEntry) (List (List String) × List LogEntry) →
    List (List String)
  | .ok (a, _) => a
  | .error (_, a, _) => a

/-- A real directory listing never produces an entry name containing the
path separator; this well-formedness assumption on the modelled filesystem
expresses that. -/
def FS.slashFreeNames (fsi : FS) : Prop :=
  ∀ p es, fsi.readdir p = .ok es → ∀ ent ∈ es, ∀ c ∈ ent.name.data, ¬ c = '/'

/-- A workspace with two depth-1 directories `a` and `b`, both carrying a
marker file; reading `a`'s marker throws, `b`'s marker is fine. -/
def fsReadFail : FS where
  workspaceFolderPath := .ok "/w"
  readdir := fun p =>
    if p = "/w" then .ok [⟨"a", true⟩, ⟨"b", true⟩]
    else if p = "/w/a" then .ok []
    else if p = "/w/b" then .ok []
    else .error "ENOENT"
  fileExists := fun p =>
    p = "/w/a/bin/ruyi-activate" || p = "/w/b/bin/ruyi-activate"
  readFile := fun p =>
    if p = "/w/b/bin/ruyi-activate" then .ok "RUYI_VENV_PROMPT=B\n"
    else .error "EIO"

/-- A workspace with one directory `d` whose marker line is
`RUYI_VENV_PROMPT=a=b`. -/
def fsEqValue : FS where
  workspaceFolderPath := .ok "/w"
  readdir := fun p =>
    if p = "/w" then .ok [⟨"d", true⟩]
    else if p = "/w/d" then .ok []
    else .error "ENOENT"
  fileExists := fun p => p = "/w/d/bin/ruyi-activate"
  readFile := fun p =>
    if p = "/w/d/bin/ruyi-activate" then .ok "RUYI_VENV_PROMPT=a=b\n"
    else .error "ENOENT"

/-- A workspace with one directory `venvA` whose marker content is
`RUYI_VENV_PROMPT=myenv\n`. -/
def fsMyenv : FS where
  workspaceFolderPath := .ok "/w"
  readdir := fun p =>
    if p = "/w" then .ok [⟨"venvA", true⟩]
    else if p = "/w/venvA" then .ok []
    else .error "ENOENT"
  fileExists := fun p => p = "/w/venvA/bin/ruyi-activate"
  readFile := fun p =>
    if p = "/w/venvA/bin/ruyi-activate" then .ok "RUYI_VENV_PROMPT=myenv\n"
    else .error "ENOENT"

/-- A workspace where listing the depth-1 directory `bad` fails with `EACCES`
while the sibling `good` holds a valid environment. -/
def fsBadSibling : FS where
  workspaceFolderPath := .ok "/w"
  readdir := fun p =>
    if p = "/w" then .ok [⟨"bad", true⟩, ⟨"good", true⟩]
    else if p = "/w/bad" then .error "EACCES"
    else if p = "/w/good" then .ok []
    else .error "ENOENT"
  fileExists := fun p => p = "/w/good/bin/ruyi-activate"
  readFile := fun p =>
    if p = "/w/good/bin/ruyi-activate" then .ok "RUYI_VENV_PROMPT=X\n"
    else .error "ENOENT"

/-- A workspace whose root directory is unreadable. -/
def fsRootFail : FS where
  workspaceFolderPath := .ok "/w"
  readdir := fun _ => .error "EACCES"
  fileExists := fun _ => false
  readFile := fun _ => .error "ENOENT"

/-- A world where the workspace-root resolver itself throws. -/
def fsNoWorkspace : FS where
  workspaceFolderPath := .error "No workspace folder is open"
  readdir := fun _ => .error "ENOENT"
  fileExists := fun _ => false
  readFile := fun _ => .error "ENOENT"

/-- A workspace with one directory `d` whose marker line is exactly
`RUYI_VENV_PROMPT=` (empty value). -/
def fsEmptyValue : FS where
  workspaceFolderPath := .ok "/w"
  readdir := fun p =>
    if p = "/w" then .ok [⟨"d", true⟩]
    else if p = "/w/d" then .ok []
    else .error "ENOENT"
  fileExists := fun p => p = "/w/d/bin/ruyi-activate"
  readFile := fun p =>
    if p = "/w/d/bin/ruyi-activate" then .ok "RUYI_VENV_PROMPT=\n"
    else .error "ENOENT"


/-- The item returned by the `ruyi.venv.detect` picker. -/
structure PickedVenv where
  label : String
  description : String
  rawPath : String
deriving DecidableEq

/-- The user-visible effects of the clean command, in order. -/
inductive CleanEffect where
  | showError (msg : String)
  | showInfo (msg : String)
  | statCall (p : String)
  | deleteDir (p : String)
deriving DecidableEq

/-- The external world of the clean command: the picker result, the
process-wide `currentVenv`, the confirmation dialog's answer, the workspace
resolver, and the `vscode.workspace.fs` operations keyed by absolute path. -/
structure CleanEnv where
  pickedVenv : Option PickedVenv
  currentVenv : String
  confirmDelete : Bool
  workspaceFolderPath : Except String String
  statResult : String → Except String Unit
  deleteResult : String → Except String Unit

/-- The callback registered for `ruyi.venv.clean`, as the ordered list of
effects it produces in a given environment. -/
def cleanCommand (env : CleanEnv) : List CleanEffect :=
  match env.pickedVenv with
  | none => []
  | some picked =>
    let venvPath := "./" ++ picked.rawPath
    if venvPath = env.currentVenv then
      [.showError "Cannot delete the currently active Ruyi venv. Please deactivate it first."]
    else if env.confirmDelete then
      match env.workspaceFolderPath with
      | .error e => [.showError ("Failed to delete venv: " ++ e)]
      | .ok ws =>
        let cleanPath := if jsStartsWith "./" venvPath then venvPath.drop 2 else venvPath
        let absolutePath := pathJoin ws cleanPath
        match env.statResult absolutePath with
        | .error e => [.statCall absolutePath, .showError ("Failed to delete venv: " ++ e)]
        | .ok _ =>
          match env.deleteResult absolutePath with
          | .error e =>
            [.statCall absolutePath, .deleteDir absolutePath,
             .showError ("Failed to delete venv: " ++ e)]
          | .ok _ =>
            [.statCall absolutePath, .deleteDir absolutePath,
             .showInfo ("Ruyi venv at " ++ absolutePath ++ " has been deleted.")]
    else []

/-- The clean environment used by concrete checks: the picked venv is the
currently active one. -/
def envActivePick : CleanEnv where
  pickedVenv := some ⟨"myenv", "venvA", "venvA"⟩
  currentVenv := "./venvA"
  confirmDelete := true
  workspaceFolderPath := .ok "/w"
  statResult := fun _ => .ok ()
  deleteResult := fun _ => .ok ()


/-- `upToEqL l`: the characters of `l` up to (excluding) the first `=`. -/
def upToEqL : List Char → List Char
  | [] => []
  | c :: cs => if c = '=' then [] else c :: upToEqL cs

/-- `afterFirstEqL l`: the characters of `l` strictly after the first `=`
(empty when there is no `=`). -/
def afterFirstEqL : List Char → List Char
  | [] => []
  | c :: cs => if c = '=' then cs else afterFirstEqL cs

/-- The text strictly between the first and the second `=` of `s`
(up to the end when there is no second `=`). -/
def betweenEq (s : String) : String :=
  String.mk (upToEqL (afterFirstEqL s.data))

theorem jsSplitList_ne_nil (sep : Char) (l : List Char) : jsSplitList sep l ≠ [] := by
  induction l with
  | nil => simp [jsSplitList]
  | cons c cs ih =>
    simp only [jsSplitList]
    split
    · simp
    · cases h : jsSplitList sep cs with
      | nil => exact absurd h ih
      | cons p ps => simp [h]

theorem jsSplitList_getD_zero (l : List Char) :
    (jsSplitList '=' l).getD 0 [] = upToEqL l := by
  induction l with
  | nil => simp [jsSplitList, upToEqL]
  | cons c cs ih =>
    simp only [jsSplitList, upToEqL]
    split
    · simp
    · cases h : jsSplitList '=' cs with
      | nil => exact absurd h (jsSplitList_ne_nil '=' cs)
      | cons p ps =>
        rw [h] at ih
        simpa using ih

theorem jsSplitList_getD_one (l : List Char) :
    (jsSplitList '=' l).getD 1 [] = upToEqL (afterFirstEqL l) := by
  induction l with
  | nil => simp [jsSplitList, upToEqL, afterFirstEqL]
  | cons c cs ih =>
    simp only [jsSplitList, afterFirstEqL]
    split
    · simpa using jsSplitList_getD_zero cs
    · cases h : jsSplitList '=' cs with
      | nil => exact absurd h (jsSplitList_ne_nil '=' cs)
      | cons p ps =>
        rw [h] at ih
        simpa using ih

theorem map_mk_getD_one (l : List (List Char)) :
    (l.map (fun c => String.mk c)).getD 1 "" = String.mk (l.getD 1 []) := by
  match l with
  | [] => rfl
  | [a] => rfl
  | a :: b :: t => rfl

/-- The label the code computes from a prompt line: `split('=')[1].trim()`. -/
theorem jsSplit_getD_one (line : String) :
    (jsSplit '=' line).getD 1 "" = betweenEq line := by
  rw [jsSplit, map_mk_getD_one, jsSplitList_getD_one, betweenEq]

/-- Exhaustive description of the possible outcomes of one loop iteration. -/
theorem processDir_cases (fsi : FS) (ws : String) (acc : List (List String))
    (log : List LogEntry) (d : String) :
    (∃ e, processDir fsi ws acc log d = .error (e, acc, log)) ∨
    processDir fsi ws acc log d = .ok (acc, log ++ [.warn ("Skipping unsafe path: " ++ d)]) ∨
    processDir fsi ws acc log d = .ok (acc, log) ∨
    (∃ lbl content, processDir fsi ws acc log d = .ok (acc ++ [[d, lbl]], log) ∧
      (jsSplit '/' d).all isPathSafe = true ∧
      fsi.fileExists (markerPath ws d) = true ∧
      fsi.readFile (markerPath ws d) = .ok content ∧
      promptLabel content = some lbl) := by
  by_cases hsafe : (jsSplit '/' d).all isPathSafe = true
  · by_cases hex : fsi.fileExists (markerPath ws d) = true
    · rcases hread : fsi.readFile (markerPath ws d) with e | content
      · refine Or.inl ⟨e, ?_⟩
        simp only [processDir, hsafe, hex, hread, if_true]
      · rcases hl : promptLabel content with - | lbl
        · refine Or.inr (Or.inr (Or.inl ?_))
          simp only [processDir, hsafe, hex, hread, hl, if_true]
        · refine Or.inr (Or.inr (Or.inr ⟨lbl, content, ?_, hsafe, hex, rfl, hl⟩))
          simp only [processDir, hsafe, hex, hread, hl, if_true]
    · refine Or.inr (Or.inr (Or.inl ?_))
      simp [processDir, hsafe, hex]
  · refine Or.inr (Or.inl ?_)
    simp [processDir, hsafe]

/-- Every record visible in a loop outcome was in the initial accumulator or
stems from a listed candidate that passed the safety check, whose marker file
exists and was read, and whose content parsed to the record's label. -/
theorem scanLoop_mem (fsi : FS) (ws : String) (ds : List String)
    (acc : List (List String)) (log : List LogEntry) (r : List String)
    (hr : r ∈ accOf (scanLoop fsi ws ds acc log)) :
    r ∈ acc ∨ ∃ d ∈ ds, ∃ lbl content,
      r = [d, lbl] ∧ (jsSplit '/' d).all isPathSafe = true ∧
      fsi.fileExists (markerPath ws d) = true ∧
      fsi.readFile (markerPath ws d) = .ok content ∧
      promptLabel content = some lbl := by
  induction ds generalizing acc log with
  | nil =>
    left
    simpa [scanLoop, accOf] using hr
  | cons d ds ih =>
    simp only [scanLoop] at hr
    rcases processDir_cases fsi ws acc log d with ⟨e, hp⟩ | hp | hp | ⟨lbl, content, hp, hsafe, hex, hread, hl⟩
    · rw [hp] at hr
      exact Or.inl hr
    · rw [hp] at hr
      rcases ih _ _ hr with h | ⟨d2, hd2, rest⟩
      · exact Or.inl h
      · exact Or.inr ⟨d2, List.mem_cons_of_mem d hd2, rest⟩
    · rw [hp] at hr
      rcases ih _ _ hr with h | ⟨d2, hd2, rest⟩
      · exact Or.inl h
      · exact Or.inr ⟨d2, List.mem_cons_of_mem d hd2, rest⟩
    · rw [hp] at hr
      rcases ih _ _ hr with h | ⟨d2, hd2, rest⟩
      · rcases List.mem_append.mp h with h | h
        · exact Or.inl h
        · simp only [List.mem_singleton] at h
          exact Or.inr ⟨d, List.mem_cons_self d ds, lbl, content, h, hsafe, hex, hread, hl⟩
      · exact Or.inr ⟨d2, List.mem_cons_of_mem d hd2, rest⟩

/-- The scan result is the accumulator of the `try` block's outcome. -/
theorem detectVenv_fst (fsi : FS) : (detectVenv fsi).1 = accOf (tryDetect fsi) := by
  unfold detectVenv accOf
  rcases tryDetect fsi with ⟨e, acc, log⟩ | ⟨acc, log⟩ <;> rfl

/-- Every returned record stems from a candidate in `allDirsToCheck` that
passed the safety check, has an existing readable marker file, and a parsed
label. -/
theorem detectVenv_mem (fsi : FS) (ws : String) (entries : List DirEntry)
    (hws : fsi.workspaceFolderPath = .ok ws)
    (hroot : fsi.readdir ws = .ok entries)
    (r : List String) (hr : r ∈ (detectVenv fsi).1) :
    ∃ d ∈ (rootCandidates fsi ws entries).1, ∃ lbl content,
      r = [d, lbl] ∧ (jsSplit '/' d).all isPathSafe = true ∧
      fsi.fileExists (markerPath ws d) = true ∧
      fsi.readFile (markerPath ws d) = .ok content ∧
      promptLabel content = some lbl := by
  rw [detectVenv_fst] at hr
  simp only [tryDetect, hws, hroot] at hr
  rcases scanLoop_mem fsi ws _ _ _ r hr with h | h
  · simp at h
  · exact h

theorem jsSplitList_of_slashFree (l : List Char) (h : ∀ c ∈ l, ¬ c = '/') :
    jsSplitList '/' l = [l] := by
  induction l with
  | nil => rfl
  | cons c cs ih =>
    have hc : ¬ c = '/' := h c (List.mem_cons_self c cs)
    have hrest := ih (fun x hx => h x (List.mem_cons_of_mem c hx))
    simp only [jsSplitList, if_neg hc, hrest]

theorem jsSplitList_append (l1 l2 : List Char) (h : ∀ c ∈ l1, ¬ c = '/') :
    jsSplitList '/' (l1 ++ '/' :: l2) = l1 :: jsSplitList '/' l2 := by
  induction l1 with
  | nil => simp [jsSplitList]
  | cons c cs ih =>
    have hc : ¬ c = '/' := h c (List.mem_cons_self c cs)
    have hrest := ih (fun x hx => h x (List.mem_cons_of_mem c hx))
    simp only [List.cons_append, jsSplitList, if_neg hc, List.append_eq, hrest]

/-- Splitting a slash-free name on `/` yields that single segment. -/
theorem jsSplit_of_slashFree (s : String) (h : ∀ c ∈ s.data, ¬ c = '/') :
    jsSplit '/' s = [s] := by
  simp [jsSplit, jsSplitList_of_slashFree s.data h]

/-- Splitting `<depth1>/<depth2>` built from slash-free names yields exactly
the two segments. -/
theorem jsSplit_depth2 (s t : String) (hs : ∀ c ∈ s.data, ¬ c = '/')
    (ht : ∀ c ∈ t.data, ¬ c = '/') :
    jsSplit '/' (s ++ "/" ++ t) = [s, t] := by
  have hdata : (s ++ "/" ++ t).data = s.data ++ '/' :: t.data := by
    simp [String.data_append]
  simp [jsSplit, hdata, jsSplitList_append s.data t.data hs,
    jsSplitList_of_slashFree t.data ht]

/-- Every element of `allDirsToCheck` is either a depth-1 directory name or
`<depth1>/<depth2>` for a directory entry of a successfully listed depth-1
directory. -/
theorem rootCandidates_mem (fsi : FS) (ws : String) (entries : List DirEntry)
    (d : String) (hd : d ∈ (rootCandidates fsi ws entries).1) :
    (∃ ent ∈ entries, ent.isDir = true ∧ d = ent.name) ∨
    (∃ ent1 ∈ entries, ∃ es ent2, ent1.isDir = true ∧
      fsi.readdir (pathJoin ws ent1.name) = .ok es ∧ ent2 ∈ es ∧ ent2.isDir = true ∧
      d = ent1.name ++ "/" ++ ent2.name) := by
  simp only [rootCandidates, List.mem_append] at hd
  rcases hd with hd | hd
  · left
    simp only [List.mem_map, List.mem_filter] at hd
    obtain ⟨ent, ⟨hent, hdir⟩, hname⟩ := hd
    exact ⟨ent, hent, hdir, hname.symm⟩
  · right
    simp only [List.mem_flatten, List.mem_map] at hd
    obtain ⟨l, ⟨pair, ⟨s, hs, hpair⟩, hfst⟩, hdl⟩ := hd
    simp only [List.mem_map, List.mem_filter] at hs
    obtain ⟨ent1, ⟨hent1, hdir1⟩, hname1⟩ := hs
    subst hpair
    subst hfst
    unfold listSubdirsOf at hdl
    rcases hread : fsi.readdir (pathJoin ws s) with e | es
    · rw [hread] at hdl
      simp at hdl
    · rw [hread] at hdl
      simp only [List.mem_map, List.mem_filter] at hdl
      obtain ⟨ent2, ⟨hent2, hdir2⟩, hname2⟩ := hdl
      subst hname1
      exact ⟨ent1, hent1, es, ent2, hdir1, hread, hent2, hdir2, hname2.symm⟩

/-- C1 counterexample: in `fsReadFail` the candidate `a` passes the existence
check but its marker read throws `EIO`; contrary to the claim, the sibling
`b` (which holds a valid environment with prompt `B`) is not scanned any
more — the result is empty and the only log line is an error, not a warning,
so the failure is not isolated to the one candidate. -/
theorem c1_counterexample :
    detectVenv fsReadFail = ([], [.error "[Error] Failed to detect venvs: EIO"]) ∧
    ["b", "B"] ∉ (detectVenv fsReadFail).1 := by
  decide

/-- C1 (amended): a marker-file read failure for a candidate that passed the
existence check aborts the candidate loop at that point, carrying the records
and log accumulated so far (later candidates are never evaluated), and
`detectVenv`'s top-level handler turns the exception into a logged error
appended to the log, returning the accumulated records. -/
theorem c1_read_failure_aborts :
    (∀ (fsi : FS) (ws d : String) (ds : List String) (acc : List (List String))
      (log : List LogEntry) (e : String),
      (jsSplit '/' d).all isPathSafe = true →
      fsi.fileExists (markerPath ws d) = true →
      fsi.readFile (markerPath ws d) = .error e →
      scanLoop fsi ws (d :: ds) acc log = .error (e, acc, log)) ∧
    (∀ (fsi : FS) (e : String) (acc : List (List String)) (log : List LogEntry),
      tryDetect fsi = .error (e, acc, log) →
      detectVenv fsi = (acc, log ++ [.error ("[Error] Failed to detect venvs: " ++ e)])) := by
  constructor
  · intro fsi ws d ds acc log e hsafe hex hread
    simp only [scanLoop, processDir, hsafe, hex, hread, if_true]
  · intro fsi e acc log h
    simp only [detectVenv, h]

/-- Witness for C1 (amended) at the concrete filesystem `fsReadFail`. -/
theorem c1_read_failure_aborts_witness :
    scanLoop fsReadFail "/w" ["a", "b"] [] [] = .error ("EIO", [], []) ∧
    detectVenv fsReadFail = ([], [.error ("[Error] Failed to detect venvs: " ++ "EIO")]) :=
  ⟨c1_read_failure_aborts.1 fsReadFail "/w" "a" ["b"] [] [] "EIO"
      (by decide) (by decide) rfl,
    c1_read_failure_aborts.2 fsReadFail "EIO" [] [] rfl⟩

/-- C2 counterexample: in `fsEqValue` the marker line is
`RUYI_VENV_PROMPT=a=b`; the claim says the label is everything after the
first `=`, i.e. `a=b`, but the code computes `split('=')[1]`, i.e. `a`. -/
theorem c2_counterexample :
    detectVenv fsEqValue = ([["d", "a"]], []) ∧
    ["d", "a=b"] ∉ (detectVenv fsEqValue).1 := by
  decide

/-- C2 (amended): the label is the portion of the first matching line strictly
between the first and the second `=` (to the end of the line when there is no
second `=`), with surrounding whitespace trimmed; `RUYI_VENV_PROMPT=a=b`
yields `a`, and content `RUYI_VENV_PROMPT=  spaced  ` followed by a newline
yields `spaced`. -/
theorem c2_label_between_eq :
    (∀ line : String,
      jsTrim ((jsSplit '=' line).getD 1 "") = jsTrim (betweenEq line)) ∧
    promptLabel "RUYI_VENV_PROMPT=a=b" = some "a" ∧
    promptLabel "RUYI_VENV_PROMPT=  spaced  \n" = some "spaced" :=
  ⟨fun line => by rw [jsSplit_getD_one], by decide, by decide⟩

/-- C3: every record returned by the scan is a `[relativePath, label]` pair
all of whose `/`-separated segments pass `isPathSafe`; and a candidate with
an unsafe segment is skipped with a logged warning, the loop continuing
normally (no exception). -/
theorem c3_safe_segments :
    (∀ (fsi : FS) (r : List String), r ∈ (detectVenv fsi).1 →
      ∃ dir lbl, r = [dir, lbl] ∧ (jsSplit '/' dir).all isPathSafe = true) ∧
    (∀ (fsi : FS) (ws d : String) (ds : List String) (acc : List (List String))
      (log : List LogEntry),
      (jsSplit '/' d).all isPathSafe = false →
      scanLoop fsi ws (d :: ds) acc log =
        scanLoop fsi ws ds acc (log ++ [.warn ("Skipping unsafe path: " ++ d)])) := by
  constructor
  · intro fsi r hr
    rw [detectVenv_fst] at hr
    rcases hws : fsi.workspaceFolderPath with e | ws
    · simp [tryDetect, hws, accOf] at hr
    · rcases hroot : fsi.readdir ws with e | entries
      · simp [tryDetect, hws, hroot, accOf] at hr
      · rw [← detectVenv_fst] at hr
        obtain ⟨d, -, lbl, -, hrd, hsafe, -⟩ := detectVenv_mem fsi ws entries hws hroot r hr
        exact ⟨d, lbl, hrd, hsafe⟩
  · intro fsi ws d ds acc log h
    simp [scanLoop, processDir, h]

/-- Witness for C3 at `fsMyenv` and the unsafe candidate `..`. -/
theorem c3_safe_segments_witness :
    (∃ dir lbl, ["venvA", "myenv"] = [dir, lbl] ∧
      (jsSplit '/' dir).all isPathSafe = true) ∧
    scanLoop fsMyenv "/w" [".."] [] [] =
      scanLoop fsMyenv "/w" [] [] ([] ++ [.warn ("Skipping unsafe path: " ++ "..")]) :=
  ⟨c3_safe_segments.1 fsMyenv ["venvA", "myenv"] (by decide),
    c3_safe_segments.2 fsMyenv "/w" ".." [] [] [] (by decide)⟩

/-- C4: under the well-formedness assumption that directory listings never
produce names containing `/`, every returned record's relativePath splits
into at least one and at most two segments — the scan never reports a
candidate deeper than depth 2. -/
theorem c4_depth_bound (fsi : FS) (h : fsi.slashFreeNames) :
    ∀ r ∈ (detectVenv fsi).1, ∃ dir lbl, r = [dir, lbl] ∧
      1 ≤ (jsSplit '/' dir).length ∧ (jsSplit '/' dir).length ≤ 2 := by
  intro r hr
  rw [detectVenv_fst] at hr
  rcases hws : fsi.workspaceFolderPath with e | ws
  · simp [tryDetect, hws, accOf] at hr
  · rcases hroot : fsi.readdir ws with e | entries
    · simp [tryDetect, hws, hroot, accOf] at hr
    · rw [← detectVenv_fst] at hr
      obtain ⟨d, hd, lbl, -, hrd, -⟩ := detectVenv_mem fsi ws entries hws hroot r hr
      refine ⟨d, lbl, hrd, ?_⟩
      rcases rootCandidates_mem fsi ws entries d hd with
        ⟨ent, hent, -, hname⟩ | ⟨ent1, hent1, es, ent2, -, hread, hent2, -, hname⟩
      · subst hname
        rw [jsSplit_of_slashFree ent.name (h ws entries hroot ent hent)]
        simp
      · subst hname
        rw [jsSplit_depth2 ent1.name ent2.name
          (h ws entries hroot ent1 hent1)
          (h (pathJoin ws ent1.name) es hread ent2 hent2)]
        simp

/-- Witness for C4 at `fsMyenv`. -/
theorem c4_depth_bound_witness :
    ∃ dir lbl, ["venvA", "myenv"] = [dir, lbl] ∧
      1 ≤ (jsSplit '/' dir).length ∧ (jsSplit '/' dir).length ≤ 2 :=
  c4_depth_bound fsMyenv
    (by
      intro p es hes ent hent
      revert hes
      simp only [fsMyenv]
      split
      · intro hes
        injection hes with hes
        subst hes
        simp only [List.mem_singleton] at hent
        subst hent
        decide
      · split
        · intro hes
          injection hes with hes
          subst hes
          simp at hent
        · intro hes
          exact absurd hes (by simp))
    ["venvA", "myenv"] (by decide)

/-- C5: for a safe candidate, an existing readable marker whose content has a
`RUYI_VENV_PROMPT=` line yields exactly one appended record; an existing
readable marker with no such line yields no record; a missing marker is
skipped silently (no record, no log line); and content
`RUYI_VENV_PROMPT=myenv` plus a newline yields exactly the record
`(thatDirName, "myenv")`. -/
theorem c5_marker_semantics :
    (∀ (fsi : FS) (ws : String) (acc : List (List String)) (log : List LogEntry)
      (d content lbl : String),
      (jsSplit '/' d).all isPathSafe = true →
      fsi.fileExists (markerPath ws d) = true →
      fsi.readFile (markerPath ws d) = .ok content →
      promptLabel content = some lbl →
      processDir fsi ws acc log d = .ok (acc ++ [[d, lbl]], log)) ∧
    (∀ (fsi : FS) (ws : String) (acc : List (List String)) (log : List LogEntry)
      (d content : String),
      (jsSplit '/' d).all isPathSafe = true →
      fsi.fileExists (markerPath ws d) = true →
      fsi.readFile (markerPath ws d) = .ok content →
      promptLabel content = none →
      processDir fsi ws acc log d = .ok (acc, log)) ∧
    (∀ (fsi : FS) (ws : String) (acc : List (List String)) (log : List LogEntry)
      (d : String),
      (jsSplit '/' d).all isPathSafe = true →
      fsi.fileExists (markerPath ws d) = false →
      processDir fsi ws acc log d = .ok (acc, log)) ∧
    promptLabel "RUYI_VENV_PROMPT=myenv\n" = some "myenv" ∧
    detectVenv fsMyenv = ([["venvA", "myenv"]], []) := by
  refine ⟨?_, ?_, ?_, by decide, by decide⟩
  · intro fsi ws acc log d content lbl hsafe hex hread hl
    simp only [processDir, hsafe, hex, hread, hl, if_true]
  · intro fsi ws acc log d content hsafe hex hread hl
    simp only [processDir, hsafe, hex, hread, hl, if_true]
  · intro fsi ws acc log d hsafe hex
    simp [processDir, hsafe, hex]

/-- Witness for C5 at `fsMyenv` and candidate `venvA`. -/
theorem c5_marker_semantics_witness :
    processDir fsMyenv "/w" [] [] "venvA" = .ok ([] ++ [["venvA", "myenv"]], []) :=
  c5_marker_semantics.1 fsMyenv "/w" [] [] "venvA" "RUYI_VENV_PROMPT=myenv\n" "myenv"
    (by decide) (by decide) rfl (by decide)

/-- C6: a failure to list one depth-1 subdirectory is swallowed inside the
flatMap: it contributes no depth-2 candidates and exactly one warning naming
that directory; concretely, with `bad` unreadable and sibling `good` holding
a valid environment, the scan still returns the sibling's record and the log
holds exactly one warning. -/
theorem c6_subdir_failure_isolated :
    (∀ (fsi : FS) (ws subdir e : String),
      fsi.readdir (pathJoin ws subdir) = .error e →
      listSubdirsOf fsi ws subdir =
        ([], [.warn ("[Warning] Failed to read " ++ subdir ++ ": " ++ e)])) ∧
    detectVenv fsBadSibling =
      ([["good", "X"]], [.warn "[Warning] Failed to read bad: EACCES"]) := by
  constructor
  · intro fsi ws subdir e h
    simp only [listSubdirsOf, h]
  · decide

/-- Witness for C6 at `fsBadSibling` and the unreadable directory `bad`. -/
theorem c6_subdir_failure_isolated_witness :
    listSubdirsOf fsBadSibling "/w" "bad" =
      ([], [.warn ("[Warning] Failed to read " ++ "bad" ++ ": " ++ "EACCES")]) :=
  c6_subdir_failure_isolated.1 fsBadSibling "/w" "bad" "EACCES" rfl

/-- C7: `detectVenv` is total — for every filesystem behaviour it returns a
(possibly empty) record list and a log — and when listing the root directory
itself fails, an error is logged and the record list is empty. -/
theorem c7_never_raises :
    (∀ fsi : FS, ∃ venvs log, detectVenv fsi = (venvs, log)) ∧
    (∀ (fsi : FS) (ws e : String),
      fsi.workspaceFolderPath = .ok ws →
      fsi.readdir ws = .error e →
      detectVenv fsi = ([], [.error ("[Error] Failed to detect venvs: " ++ e)])) := by
  constructor
  · intro fsi
    exact ⟨(detectVenv fsi).1, (detectVenv fsi).2, rfl⟩
  · intro fsi ws e hws hroot
    simp [detectVenv, tryDetect, hws, hroot]

/-- Witness for C7 at `fsRootFail`, whose root listing fails with `EACCES`. -/
theorem c7_never_raises_witness :
    detectVenv fsRootFail = ([], [.error ("[Error] Failed to detect venvs: " ++ "EACCES")]) :=
  c7_never_raises.2 fsRootFail "/w" "EACCES" rfl rfl

/-- C8: whenever the picked venv's relative path, normalized with a leading
`./`, equals the process-wide currently active venv path, the clean command
produces exactly one user-visible error and never invokes the recursive
delete. -/
theorem c8_active_guard (env : CleanEnv) (picked : PickedVenv)
    (hp : env.pickedVenv = some picked)
    (heq : "./" ++ picked.rawPath = env.currentVenv) :
    cleanCommand env =
      [.showError "Cannot delete the currently active Ruyi venv. Please deactivate it first."] ∧
    ∀ p, CleanEffect.deleteDir p ∉ cleanCommand env := by
  have hcmd : cleanCommand env =
      [.showError "Cannot delete the currently active Ruyi venv. Please deactivate it first."] := by
    simp only [cleanCommand, hp]
    rw [if_pos heq]
  exact ⟨hcmd, fun p => by simp [hcmd]⟩

/-- Witness for C8 at `envActivePick`, where the picked venv is active. -/
theorem c8_active_guard_witness :
    cleanCommand envActivePick =
      [.showError "Cannot delete the currently active Ruyi venv. Please deactivate it first."] ∧
    ∀ p, CleanEffect.deleteDir p ∉ cleanCommand envActivePick :=
  c8_active_guard envActivePick ⟨"myenv", "venvA", "venvA"⟩ (by decide) (by decide)

/-- C9: when the workspace-root resolver throws, the exception is caught by
the scanner's top-level handler: an error is logged and the empty list is
returned. -/
theorem c9_resolver_failure (fsi : FS) (e : String)
    (h : fsi.workspaceFolderPath = .error e) :
    detectVenv fsi = ([], [.error ("[Error] Failed to detect venvs: " ++ e)]) := by
  simp [detectVenv, tryDetect, h]

/-- Witness for C9 at `fsNoWorkspace`, whose resolver throws. -/
theorem c9_resolver_failure_witness :
    detectVenv fsNoWorkspace =
      ([], [.error ("[Error] Failed to detect venvs: " ++ "No workspace folder is open")]) :=
  c9_resolver_failure fsNoWorkspace "No workspace folder is open" rfl

/-- C10: a marker whose matching line is exactly `RUYI_VENV_PROMPT=` still
yields a record, with the empty string as label — an empty value does not
disqualify the candidate. -/
theorem c10_empty_label :
    detectVenv fsEmptyValue = ([["d", ""]], []) ∧
    promptLabel "RUYI_VENV_PROMPT=" = some "" := by
  decide

end RuyiVenv
